import Mathlib

/-!
Shallow embedding of the builder code generator in `src/builder/src/builder.rs`
(crate `builder` of DaviRain-Su/learn-macro).

The generator inspects a struct declaration, classifies each field's type,
reads per-field `#[builder(...)]` directives, and emits a builder struct with
per-field setter/accumulator methods and a `finish` operation.  We embed:

* the syntactic type model (`syn::Type` restricted to the parts the code
  inspects: path types with segments carrying generic arguments),
* the type probes `get_type_inner` / `get_option_inner` / `get_vec_inner`
  (Rust panics become `Except.error`),
* the per-field generation decisions of `gen_optionized_fields`,
  `gen_methods` and `gen_assigns` as structured output rather than token
  streams, and
* the runtime semantics of the emitted builder methods and `finish` body.
-/

namespace Builder

-- Model of `syn::Type` restricted to what `get_type_inner` inspects:
-- a path type is a list of segments; anything else (references, tuples, ...)
-- is opaque.
mutual

/-- Model of `syn::Type`: a path type or an opaque non-path type. -/
inductive RType where
  | path : List PathSegment → RType
  | other : String → RType

/-- One path segment: an identifier plus its generic arguments,
modelling `syn::PathSegment`. -/
inductive PathSegment where
  | mk (ident : String) (arguments : PathArguments)

/-- Model of `syn::PathArguments`. -/
inductive PathArguments where
  | noArgs : PathArguments
  | angleBracketed : List GenArg → PathArguments
  | parenthesized : PathArguments

/-- Model of `syn::GenericArgument`: a type argument, or any of the other
variants (lifetime, const, binding, ...) which the code treats alike. -/
inductive GenArg where
  | tyArg : RType → GenArg
  | otherArg : String → GenArg

end

def PathSegment.ident : PathSegment → String
  | .mk i _ => i

def PathSegment.arguments : PathSegment → PathArguments
  | .mk _ a => a

/-- Embedding of `get_type_inner(ty, name)`.  The Rust function returns
`(bool, &Type)` and panics in two places; we return the pair in `Except`,
with the panic messages as errors. -/
def get_type_inner (ty : RType) (name : String) : Except String (Bool × RType) :=
  match ty with
  | RType.path segs =>
    match segs.head? with
    | some seg =>
      if seg.ident = name then
        match seg.arguments with
        | PathArguments.angleBracketed gargs =>
          match gargs.head? with
          | some (GenArg.tyArg t) => .ok (true, t)
          | _ => .error "Not sure what to do with other GenericArgument"
        | _ => .error "Not sure what to do with other PathArguments"
      else .ok (false, ty)
    | none => .ok (false, ty)
  | _ => .ok (false, ty)

/-- `get_option_inner` from the source. -/
def get_option_inner (ty : RType) : Except String (Bool × RType) :=
  get_type_inner ty "Option"

/-- `get_vec_inner` from the source. -/
def get_vec_inner (ty : RType) : Except String (Bool × RType) :=
  get_type_inner ty "Vec"

/-- The resolved per-field options (`struct Opts` in the source):
an accumulator-method name and a default-expression text, both optional. -/
structure Opts where
  each : Option String
  defaultExpr : Option String
  deriving DecidableEq

/-- `Opts::default()` (from `#[derive(Default)]`): both options absent. -/
def Opts.defaultOpts : Opts := ⟨none, none⟩

/-- A field descriptor (`struct Fd` in the source): name, declared type,
resolved options. -/
structure Fd where
  name : String
  ty : RType
  opts : Opts

/-- `struct BuilderContext`: the struct's name and its field list, in
declaration order. -/
structure BuilderContext where
  name : String
  fields : List Fd

/-- Raw directive data attached to a field, as the host compiler hands it to
the generator: `none` when the field carries no `#[builder(...)]` attribute,
otherwise the list of `key = "value"` items in written order. -/
structure RawField where
  name : String
  ty : RType
  attrs : Option (List (String × String))

/-- Look up the first value for `key` in a directive's item list. -/
def lookupKey (key : String) : List (String × String) → Option String
  | [] => none
  | kv :: rest => if kv.1 = key then some kv.2 else lookupKey key rest

/-- Modelled from the darling-derived `FromField` implementation for `Opts`
(`#[derive(FromField)] #[darling(default, attributes(builder))]`); the derive
expansion is not part of this repository's sources.  Per darling's documented
semantics: a field with no `builder` attribute parses to the struct default
(because of `#[darling(default)]`); a directive whose keys are all recognized
(`each`, `default`) parses to their values; a directive containing any
unrecognized key is a parse error (`darling::Error::unknown_field`). -/
def opts_from_field (attrs : Option (List (String × String))) :
    Except String Opts :=
  match attrs with
  | none => .ok Opts.defaultOpts
  | some kvs =>
    if kvs.all (fun kv => kv.1 = "each" || kv.1 = "default") then
      .ok ⟨lookupKey "each" kvs, lookupKey "default" kvs⟩
    else .error "Unknown field"

/-- The options resolution in `BuilderContext::new`:
`Opts::from_field(&f).unwrap_or_default()` — a parse failure is swallowed and
replaced by the all-default options. -/
def resolve_opts (attrs : Option (List (String × String))) : Opts :=
  match opts_from_field attrs with
  | .ok o => o
  | .error _ => Opts.defaultOpts

/-- The per-field part of `BuilderContext::new`: build an `Fd` from the raw
field, resolving its directive. -/
def mk_fd (f : RawField) : Fd :=
  ⟨f.name, f.ty, resolve_opts f.attrs⟩

/-- The per-field output of `gen_optionized_fields`: the builder's storage
field is `name: std::option::Option<U>` where `U` is the second component of
`get_option_inner(&f.ty)` — we return the pair `(name, U)`. -/
def gen_optionized_field (f : Fd) : Except String (String × RType) :=
  match get_option_inner f.ty with
  | .error e => .error e
  | .ok (_, ty) => .ok (f.name, ty)

/-- Structured form of the method `gen_methods` emits for one field. -/
inductive MethodForm where
  | accumulator (methodName : String) (elemTy : RType)
  | setter (methodName : String) (paramTy : RType)

/-- The per-field decision of `gen_methods`: a `Vec`-recognized field with an
`each` option gets one accumulator method named `each`, taking
`impl Into<vec_inner_type>`; every other field gets one whole-value setter
named after the field, taking `impl Into<ty>` where `ty` is the
`Option`-unwrapped declared type. -/
def gen_method (f : Fd) : Except String MethodForm :=
  match get_option_inner f.ty with
  | .error e => .error e
  | .ok (_, ty) =>
    match get_vec_inner f.ty with
    | .error e => .error e
    | .ok (true, vec_inner_type) =>
      match f.opts.each with
      | some each_name => .ok (.accumulator each_name vec_inner_type)
      | none => .ok (.setter f.name ty)
    | .ok (false, _) => .ok (.setter f.name ty)

/-- Structured form of the `finish`-body assignment `gen_assigns` emits for
one field. -/
inductive AssignForm where
  | asIs
  | withDefault (expr : String)
  | required (fieldName : String)
  deriving DecidableEq

/-- The per-field decision of `gen_assigns`: an `Option`-recognized field is
assigned `self.name.take()` as-is; otherwise a configured default yields
`self.name.take().unwrap_or_else(|| default)`; otherwise
`self.name.take().ok_or(concat!(stringify!(name), " needs to be set!"))?`. -/
def gen_assign (f : Fd) : Except String AssignForm :=
  match get_option_inner f.ty with
  | .error e => .error e
  | .ok (true, _) => .ok .asIs
  | .ok (false, _) =>
    match f.opts.defaultExpr with
    | some d => .ok (.withDefault d)
    | none => .ok (.required f.name)

/-- The whole structured output of `BuilderContext::generate`: builder name,
storage fields, methods and `finish`-body assignments, each in field
declaration order. -/
structure GenOutput where
  builderName : String
  storageFields : List (String × RType)
  methods : List MethodForm
  assigns : List AssignForm

/-- Error-propagating map: apply `f` to each element in order, aborting at
the first failure (the semantics of driving a panicking iterator to
completion, and of the `?`-chain in the emitted `finish`). -/
def mapE (f : α → Except ε β) : List α → Except ε (List β)
  | [] => .ok []
  | a :: as =>
    match f a with
    | .error e => .error e
    | .ok b =>
      match mapE f as with
      | .error e => .error e
      | .ok bs => .ok (b :: bs)

/-- `BuilderContext::generate`: builder name is `{name}Builder`; the three
field-wise token streams are produced by mapping the per-field generators
over the field list (a panic in any field aborts the whole generation,
producing no output). -/
def generate (ctx : BuilderContext) : Except String GenOutput :=
  match mapE gen_optionized_field ctx.fields with
  | .error e => .error e
  | .ok storage =>
    match mapE gen_method ctx.fields with
    | .error e => .error e
    | .ok methods =>
      match mapE gen_assign ctx.fields with
      | .error e => .error e
      | .ok assigns => .ok ⟨ctx.name ++ "Builder", storage, methods, assigns⟩

/-! ## Runtime semantics of the emitted builder code

The generated builder stores each field as `Option<V>`.  We model one field's
stored state as `Option α` over an arbitrary value type and give the emitted
method bodies and `finish`-body assignments their evaluation semantics. -/

/-- Body of an emitted whole-value setter:
`self.name = Some(v.into()); self` — the previous state is discarded. -/
def run_setter (_stored : Option α) (v : α) : Option α := some v

/-- Body of an emitted accumulator method:
`let mut data = self.name.take().unwrap_or_default(); data.push(v.into());
self.name = Some(data); self`. -/
def run_each (stored : Option (List α)) (v : α) : Option (List α) :=
  some (stored.getD [] ++ [v])

/-- A finished record's field value: `Option`-recognized fields hold an
optional value, all others a plain value. -/
inductive RecVal (α : Type u) where
  | opt : Option α → RecVal α
  | val : α → RecVal α
  deriving DecidableEq

/-- Evaluation of one emitted `finish`-body assignment on the field's stored
state.  `evalDefault` evaluates a default-expression text in the consuming
program (the generator itself never evaluates it).
`asIs` is `self.name.take()`; `withDefault d` is
`self.name.take().unwrap_or_else(|| d)`; `required n` is
`self.name.take().ok_or(concat!(stringify!(n), " needs to be set!"))?`. -/
def run_assign (form : AssignForm) (evalDefault : String → α)
    (stored : Option α) : Except String (RecVal α) :=
  match form with
  | .asIs => .ok (.opt stored)
  | .withDefault d =>
    match stored with
    | some v => .ok (.val v)
    | none => .ok (.val (evalDefault d))
  | .required n =>
    match stored with
    | some v => .ok (.val v)
    | none => .error (n ++ " needs to be set!")

/-- The emitted `finish` body: evaluate each field's assignment in
declaration order; the `?` operator makes the first failing assignment abort
the whole operation. -/
def run_finish (fields : List (AssignForm × Option α))
    (evalDefault : String → α) : Except String (List (RecVal α)) :=
  mapE (fun p => run_assign p.1 evalDefault p.2) fields

/-- Does this `finish`-body assignment fail on this stored state?
Only a `required` assignment with nothing stored does. -/
def assign_fails : AssignForm × Option α → Bool
  | (.required _, none) => true
  | _ => false

/-- The shape vocabulary of the specification. -/
inductive Shape where
  | plain | optionalShape | sequence
  deriving DecidableEq

/-- The classifier as the generator consults it: probe for `Option` first
(as `gen_methods` and `gen_assigns` do), then for `Vec`; a field matching
neither is plain with `innerType` the whole declared type. -/
def classify (ty : RType) : Except String (Shape × RType) :=
  match get_option_inner ty with
  | .error e => .error e
  | .ok (true, opt_inner) => .ok (.optionalShape, opt_inner)
  | .ok (false, _) =>
    match get_vec_inner ty with
    | .error e => .error e
    | .ok (true, vec_inner) => .ok (.sequence, vec_inner)
    | .ok (false, _) => .ok (.plain, ty)

/-! ## Concrete type expressions used by witnesses and counterexamples -/

/-- The bare path type `String`. -/
def stringTy : RType := .path [.mk "String" .noArgs]

/-- The bare path type `u32`. -/
def u32Ty : RType := .path [.mk "u32" .noArgs]

/-- `Option<t>` spelled bare. -/
def optionOf (t : RType) : RType :=
  .path [.mk "Option" (.angleBracketed [.tyArg t])]

/-- `Vec<t>` spelled bare. -/
def vecOf (t : RType) : RType :=
  .path [.mk "Vec" (.angleBracketed [.tyArg t])]

/-- `std::option::Option<t>`: the fully qualified spelling. -/
def qualOptionOf (t : RType) : RType :=
  .path [.mk "std" .noArgs, .mk "option" .noArgs,
         .mk "Option" (.angleBracketed [.tyArg t])]

/-- `std::vec::Vec<t>`: the fully qualified spelling. -/
def qualVecOf (t : RType) : RType :=
  .path [.mk "std" .noArgs, .mk "vec" .noArgs,
         .mk "Vec" (.angleBracketed [.tyArg t])]

/-- The identifier heading a path type (`""` for non-path types or empty
paths); used to discriminate concrete type expressions. -/
def headName : RType → String
  | .path (s :: _) => s.ident
  | _ => ""

/-- The inner type returned by a generation decision, for discriminating
outputs of `gen_optionized_field`. -/
def storageHead : Except String (String × RType) → String
  | .ok p => headName p.2
  | .error _ => ""

/-- The head identifier of the parameter (or element) type of a generated
method, for discriminating outputs of `gen_method`. -/
def methodParamHead : Except String MethodForm → String
  | .ok (.setter _ t) => headName t
  | .ok (.accumulator _ t) => headName t
  | .error _ => ""

/-- The `Command` struct of `examples/command.rs`, as the generator
receives it. -/
def commandRaw : List RawField :=
  [⟨"executable", stringTy, none⟩,
   ⟨"args", vecOf stringTy, some [("each", "arg"), ("default", "Default::default()")]⟩,
   ⟨"env", vecOf stringTy,
     some [("each", "env"), ("default", "vec![\"RUST_LOG=info\".into()]")]⟩,
   ⟨"current_dir", optionOf stringTy, none⟩]

/-- The `BuilderContext` built from the `Command` struct. -/
def commandCtx : BuilderContext := ⟨"Command", commandRaw.map mk_fd⟩

/-! ## Bridging lemmas between the probes and the shape classifier -/

theorem exc_bind_ok {ε α β : Type u} (a : α) (f : α → Except ε β) :
    (Except.ok a >>= f : Except ε β) = f a := rfl

theorem exc_bind_error {ε α β : Type u} (e : ε) (f : α → Except ε β) :
    (Except.error e >>= f : Except ε β) = Except.error e := rfl

theorem exc_pure {ε α : Type u} (a : α) :
    (pure a : Except ε α) = Except.ok a := rfl

theorem get_type_inner_false {ty t : RType} {n : String}
    (h : get_type_inner ty n = .ok (false, t)) : t = ty := by
  unfold get_type_inner at h
  split at h
  · split at h
    · split at h
      · split at h
        · split at h
          · simp at h
          · simp at h
        · simp at h
      · simp at h
        exact h.symm
    · simp at h
      exact h.symm
  · simp at h
    exact h.symm

theorem get_type_inner_true {ty t : RType} {n : String}
    (h : get_type_inner ty n = .ok (true, t)) :
    ∃ seg rest, ty = .path (seg :: rest) ∧ seg.ident = n := by
  unfold get_type_inner at h
  split at h
  · rename_i segs
    split at h
    · rename_i seg hhead
      split at h
      · rename_i hident
        cases segs with
        | nil => simp at hhead
        | cons a as =>
          simp at hhead
          exact ⟨a, as, rfl, hhead ▸ hident⟩
      · simp at h
    · simp at h
  · simp at h

theorem get_type_inner_of_head_ne {seg : PathSegment}
    {rest : List PathSegment} {m : String} (h : seg.ident ≠ m) :
    get_type_inner (.path (seg :: rest)) m =
      .ok (false, .path (seg :: rest)) := by
  simp [get_type_inner, h]

theorem vec_true_not_option {ty t : RType}
    (h : get_vec_inner ty = .ok (true, t)) :
    get_option_inner ty = .ok (false, ty) := by
  obtain ⟨seg, rest, hty, hident⟩ := get_type_inner_true h
  subst hty
  exact get_type_inner_of_head_ne (by simp [hident])

theorem option_true_not_vec {ty t : RType}
    (h : get_option_inner ty = .ok (true, t)) :
    get_vec_inner ty = .ok (false, ty) := by
  obtain ⟨seg, rest, hty, hident⟩ := get_type_inner_true h
  subst hty
  exact get_type_inner_of_head_ne (by simp [hident])

theorem classify_optional {ty t : RType}
    (h : classify ty = .ok (.optionalShape, t)) :
    get_option_inner ty = .ok (true, t) := by
  unfold classify at h
  cases hopt : get_option_inner ty with
  | error e => rw [hopt] at h; cases h
  | ok p =>
    obtain ⟨b, inner⟩ := p
    rw [hopt] at h
    cases b with
    | true =>
      simp only [Except.ok.injEq, Prod.mk.injEq] at h
      rw [h.2]
    | false =>
      cases hvec : get_vec_inner ty with
      | error e => rw [hvec] at h; cases h
      | ok q =>
        obtain ⟨bv, innv⟩ := q
        rw [hvec] at h
        cases bv <;> simp at h

theorem classify_plain {ty t : RType}
    (h : classify ty = .ok (.plain, t)) :
    get_option_inner ty = .ok (false, ty) ∧
      get_vec_inner ty = .ok (false, ty) ∧ t = ty := by
  unfold classify at h
  cases hopt : get_option_inner ty with
  | error e => rw [hopt] at h; cases h
  | ok p =>
    obtain ⟨b, inner⟩ := p
    rw [hopt] at h
    cases b with
    | true => simp at h
    | false =>
      have hi : inner = ty := get_type_inner_false hopt
      cases hvec : get_vec_inner ty with
      | error e => rw [hvec] at h; cases h
      | ok q =>
        obtain ⟨bv, innv⟩ := q
        rw [hvec] at h
        cases bv with
        | true => simp at h
        | false =>
          have hv : innv = ty := get_type_inner_false hvec
          simp only [Except.ok.injEq, Prod.mk.injEq] at h
          refine ⟨?_, ?_, h.2.symm⟩
          · rw [hi]
          · rw [hv]

theorem classify_sequence {ty t : RType}
    (h : classify ty = .ok (.sequence, t)) :
    get_option_inner ty = .ok (false, ty) ∧
      get_vec_inner ty = .ok (true, t) := by
  unfold classify at h
  cases hopt : get_option_inner ty with
  | error e => rw [hopt] at h; cases h
  | ok p =>
    obtain ⟨b, inner⟩ := p
    rw [hopt] at h
    cases b with
    | true => simp at h
    | false =>
      have hi : inner = ty := get_type_inner_false hopt
      cases hvec : get_vec_inner ty with
      | error e => rw [hvec] at h; cases h
      | ok q =>
        obtain ⟨bv, innv⟩ := q
        rw [hvec] at h
        cases bv with
        | true =>
          simp only [Except.ok.injEq, Prod.mk.injEq] at h
          refine ⟨?_, ?_⟩
          · rw [hi]
          · rw [h.2]
        | false => simp at h

/-! ## Helper lemmas for the runtime semantics -/

theorem run_finish_nil {α : Type u} (evalD : String → α) :
    run_finish ([] : List (AssignForm × Option α)) evalD = .ok [] := rfl

theorem run_finish_cons {α : Type u} (p : AssignForm × Option α)
    (ps : List (AssignForm × Option α)) (evalD : String → α) :
    run_finish (p :: ps) evalD =
      match run_assign p.1 evalD p.2 with
      | .error e => .error e
      | .ok r =>
        match run_finish ps evalD with
        | .error e => .error e
        | .ok rs => .ok (r :: rs) := by
  simp only [run_finish, mapE]
  cases run_assign p.1 evalD p.2 with
  | error e => rfl
  | ok r => cases mapE (fun q => run_assign q.1 evalD q.2) ps <;> rfl

theorem run_assign_ok_of_not_fails {α : Type u} (evalD : String → α)
    (p : AssignForm × Option α) (h : assign_fails p = false) :
    ∃ r, run_assign p.1 evalD p.2 = .ok r := by
  obtain ⟨form, stored⟩ := p
  cases form with
  | asIs => exact ⟨.opt stored, rfl⟩
  | withDefault d =>
    cases stored with
    | none => exact ⟨.val (evalD d), rfl⟩
    | some v => exact ⟨.val v, rfl⟩
  | required nm =>
    cases stored with
    | none => simp [assign_fails] at h
    | some v => exact ⟨.val v, rfl⟩

theorem foldl_run_each_some {α : Type u} (es acc : List α) :
    List.foldl run_each (some acc) es = some (acc ++ es) := by
  induction es generalizing acc with
  | nil => simp
  | cons e rest ih =>
    simp only [List.foldl_cons, run_each, Option.getD_some]
    rw [ih]
    simp

/-! ## Claim theorems -/

/-- Claim C10: wrapper recognition inspects only the first segment of the
written type path.  A field spelled `std::option::Option<T>` or
`std::vec::Vec<T>` is not recognized as a wrapper and is classified Plain
with `innerType` the whole declared type, while bare `Option<T>` / `Vec<T>`
are recognized with inner type `T`. -/
theorem c10_first_segment_only (t : RType) :
    classify (qualOptionOf t) = .ok (.plain, qualOptionOf t) ∧
    classify (qualVecOf t) = .ok (.plain, qualVecOf t) ∧
    get_option_inner (qualOptionOf t) = .ok (false, qualOptionOf t) ∧
    get_vec_inner (qualVecOf t) = .ok (false, qualVecOf t) ∧
    classify (optionOf t) = .ok (.optionalShape, t) ∧
    classify (vecOf t) = .ok (.sequence, t) := by
  refine ⟨?_, ?_, ?_, ?_, ?_, ?_⟩ <;> rfl

/-- The `current_dir: Option<String>` field of the example, carrying no
directive. -/
def c1Field : Fd := ⟨"current_dir", optionOf stringTy, Opts.defaultOpts⟩

/-- Claim C1 counterexample: for the Optional-shaped field
`current_dir: Option<String>`, the builder storage field is
`std::option::Option<String>` — i.e. `Option` of the *inner* type `String`,
not `Option` of the declared type `Option<String>` as the claim states
(`gen_optionized_fields` first unwraps the declared type with
`get_option_inner`). -/
theorem c1_counterexample :
    gen_optionized_field c1Field = .ok ("current_dir", stringTy) ∧
    gen_optionized_field c1Field ≠ .ok (c1Field.name, c1Field.ty) := by
  refine ⟨rfl, fun h => ?_⟩
  exact absurd (congrArg storageHead h) (by decide)

/-- Claim C1 (amended): every builder storage field is
`name: std::option::Option<U>` where `U` is the `Option`-unwrapped declared
type — the declared type itself for Plain and Sequence fields, but the
*inner* type for an Optional-shaped field (so `Option<T>` is stored as
`Option<T>`, not `Option<Option<T>>`). -/
theorem c1_storage_field (f : Fd) :
    (∀ s t, classify f.ty = .ok (s, t) → s ≠ Shape.optionalShape →
      gen_optionized_field f = .ok (f.name, f.ty)) ∧
    (∀ t, classify f.ty = .ok (.optionalShape, t) →
      gen_optionized_field f = .ok (f.name, t)) := by
  constructor
  · intro s t hc hs
    cases s with
    | optionalShape => exact absurd rfl hs
    | plain =>
      obtain ⟨hopt, -, -⟩ := classify_plain hc
      simp [gen_optionized_field, hopt]
    | sequence =>
      obtain ⟨hopt, -⟩ := classify_sequence hc
      simp [gen_optionized_field, hopt]
  · intro t hc
    have hopt := classify_optional hc
    simp [gen_optionized_field, hopt]

/-- Witness for C1 (amended): a Plain field keeps its declared type under
the storage `Option`; the Optional field `current_dir: Option<String>` is
stored as `Option<String>`. -/
theorem c1_witness :
    gen_optionized_field ⟨"executable", stringTy, Opts.defaultOpts⟩ =
      .ok ("executable", stringTy) ∧
    gen_optionized_field c1Field = .ok ("current_dir", stringTy) := by
  constructor
  · exact (c1_storage_field _).1 Shape.plain stringTy rfl (by decide)
  · exact (c1_storage_field _).2 stringTy rfl

/-- `Option<String, u32>`: a recognized wrapper name carrying two generic
type arguments. -/
def twoArgOptionTy : RType :=
  .path [.mk "Option" (.angleBracketed [.tyArg stringTy, .tyArg u32Ty])]

/-- Claim C2 counterexample: a recognized wrapper carrying MORE than one
generic type argument is not fatal — `get_type_inner` reads only
`a.args.iter().next()`, silently uses the first argument, and classification
succeeds. -/
theorem c2_counterexample :
    get_option_inner twoArgOptionTy = .ok (true, stringTy) ∧
    classify twoArgOptionTy = .ok (.optionalShape, stringTy) := ⟨rfl, rfl⟩

/-- `Option` spelled with no generic arguments at all. -/
def bareOptionTy : RType := .path [.mk "Option" .noArgs]

/-- `Vec` spelled with no generic arguments at all. -/
def bareVecTy : RType := .path [.mk "Vec" .noArgs]

/-- Claim C2 (amended): when the first path segment matches the probed
wrapper name, classification is fatal when the wrapper carries zero generic
type arguments (no argument list, an empty angle-bracketed list, or a first
generic argument that is not a type) or a parenthesized argument list, and
generation aborts with no output; but with more than one generic argument
whose first is a type, `get_type_inner` silently succeeds with that first
argument. -/
theorem c2_wrapper_arity (n s nm : String) (rest : List PathSegment)
    (t : RType) (more : List GenArg) (o : Opts) :
    get_type_inner (.path (.mk n .noArgs :: rest)) n =
      .error "Not sure what to do with other PathArguments" ∧
    get_type_inner (.path (.mk n (.angleBracketed []) :: rest)) n =
      .error "Not sure what to do with other GenericArgument" ∧
    get_type_inner (.path (.mk n (.angleBracketed (.otherArg s :: more)) :: rest)) n =
      .error "Not sure what to do with other GenericArgument" ∧
    get_type_inner (.path (.mk n .parenthesized :: rest)) n =
      .error "Not sure what to do with other PathArguments" ∧
    get_type_inner (.path (.mk n (.angleBracketed (.tyArg t :: more)) :: rest)) n =
      .ok (true, t) ∧
    generate ⟨nm, [⟨"f", bareOptionTy, o⟩]⟩ =
      .error "Not sure what to do with other PathArguments" ∧
    generate ⟨nm, [⟨"g", bareVecTy, o⟩]⟩ =
      .error "Not sure what to do with other PathArguments" := by
  refine ⟨?_, ?_, ?_, ?_, ?_, rfl, rfl⟩ <;>
    simp [get_type_inner, PathSegment.ident, PathSegment.arguments]

/-- The `args: Vec<String>` field with no directive at all. -/
def c3Field : Fd := ⟨"args", vecOf stringTy, Opts.defaultOpts⟩

/-- Claim C3 counterexample: for the Sequence-shaped field
`args: Vec<String>` without an accumulator name, the emitted whole-value
setter takes `impl Into<Vec<String>>` — the *declared* type, not the claimed
unwrapped inner type `String` (`gen_methods` unwraps only `Option`, not
`Vec`, when computing the setter parameter). -/
theorem c3_counterexample :
    classify c3Field.ty = .ok (.sequence, stringTy) ∧
    c3Field.opts.each = none ∧
    gen_method c3Field = .ok (.setter "args" (vecOf stringTy)) ∧
    gen_method c3Field ≠ .ok (.setter "args" stringTy) := by
  refine ⟨rfl, rfl, rfl, fun h => ?_⟩
  exact absurd (congrArg methodParamHead h) (by decide)

/-- Claim C3 (amended): every field that is not a Sequence field with an
accumulator name gets a single whole-value setter named after the field; its
parameter is convertible to the inner type for Optional fields but to the
*declared* type for Plain and for Sequence-without-accumulator fields; and
calling the setter stores `Some(value)`, replacing any prior state. -/
theorem c3_whole_value_setter (f : Fd) (α : Type u) :
    (∀ t, classify f.ty = .ok (.optionalShape, t) →
      gen_method f = .ok (.setter f.name t)) ∧
    (∀ t, classify f.ty = .ok (.plain, t) →
      gen_method f = .ok (.setter f.name f.ty)) ∧
    (∀ t, classify f.ty = .ok (.sequence, t) → f.opts.each = none →
      gen_method f = .ok (.setter f.name f.ty)) ∧
    (∀ (stored : Option α) (v : α), run_setter stored v = some v) := by
  refine ⟨?_, ?_, ?_, fun stored v => rfl⟩
  · intro t hc
    have hopt := classify_optional hc
    have hvec := option_true_not_vec hopt
    simp [gen_method, hopt, hvec]
  · intro t hc
    obtain ⟨hopt, hvec, -⟩ := classify_plain hc
    simp [gen_method, hopt, hvec]
  · intro t hc heach
    obtain ⟨hopt, hvec⟩ := classify_sequence hc
    simp [gen_method, hopt, hvec, heach]

/-- Witness for C3 (amended): the three setter cases on the example's
fields, and setter-call semantics on a concrete state. -/
theorem c3_witness :
    gen_method ⟨"current_dir", optionOf stringTy, Opts.defaultOpts⟩ =
      .ok (.setter "current_dir" stringTy) ∧
    gen_method ⟨"executable", stringTy, Opts.defaultOpts⟩ =
      .ok (.setter "executable" stringTy) ∧
    gen_method c3Field = .ok (.setter "args" (vecOf stringTy)) ∧
    run_setter (some 1) (2 : Nat) = some 2 := by
  refine ⟨?_, ?_, ?_, ?_⟩
  · exact (c3_whole_value_setter _ Nat).1 stringTy rfl
  · exact (c3_whole_value_setter _ Nat).2.1 stringTy rfl
  · exact (c3_whole_value_setter c3Field Nat).2.2.1 stringTy rfl rfl
  · exact (c3_whole_value_setter c3Field Nat).2.2.2 (some 1) 2

/-- Claim C4: a Plain-shaped field with no default gets the `required`
assignment naming the field; `finish` fails with the message of the first
required-and-unset field in declaration order (every earlier field's
assignment having succeeded); and when no required field is unset, `finish`
never fails and returns the assembled record. -/
theorem c4_required_field_validation (f : Fd) (α : Type u)
    (pre post fields : List (AssignForm × Option α)) (evalD : String → α)
    (n : String) :
    (∀ t, classify f.ty = .ok (.plain, t) → f.opts.defaultExpr = none →
      gen_assign f = .ok (.required f.name)) ∧
    ((∀ p ∈ pre, assign_fails p = false) →
      run_finish (pre ++ (AssignForm.required n, none) :: post) evalD =
        .error (n ++ " needs to be set!")) ∧
    ((∀ p ∈ fields, assign_fails p = false) →
      ∃ out, run_finish fields evalD = .ok out) := by
  refine ⟨?_, ?_, ?_⟩
  · intro t hc hd
    obtain ⟨hopt, -, -⟩ := classify_plain hc
    simp [gen_assign, hopt, hd]
  · induction pre with
    | nil => intro _; rfl
    | cons p ps ih =>
      intro hpre
      obtain ⟨r, hr⟩ := run_assign_ok_of_not_fails evalD p (hpre p (by simp))
      have hrest := ih fun q hq => hpre q (List.mem_cons_of_mem p hq)
      rw [List.cons_append, run_finish_cons, hr, hrest]
  · induction fields with
    | nil => exact fun _ => ⟨[], rfl⟩
    | cons p ps ih =>
      intro hall
      obtain ⟨r, hr⟩ := run_assign_ok_of_not_fails evalD p (hall p (by simp))
      obtain ⟨out, hout⟩ := ih fun q hq => hall q (List.mem_cons_of_mem p hq)
      exact ⟨r :: out, by rw [run_finish_cons, hr, hout]⟩

/-- Witness for C4: scenario A of the specification — a lone required field
`executable`: `finish` on a fresh builder fails naming `executable`; after
setting it, `finish` succeeds. -/
theorem c4_witness :
    gen_assign ⟨"executable", stringTy, Opts.defaultOpts⟩ =
      .ok (.required "executable") ∧
    run_finish [(AssignForm.required "executable", (none : Option String))]
        (fun s => s) = .error "executable needs to be set!" ∧
    (∃ out, run_finish [(AssignForm.required "executable", some "find")]
        (fun s => s) = .ok out) := by
  refine ⟨?_, ?_, ?_⟩
  · exact (c4_required_field_validation ⟨"executable", stringTy, Opts.defaultOpts⟩
      String [] [] [] (fun s => s) "executable").1 stringTy rfl rfl
  · exact (c4_required_field_validation ⟨"executable", stringTy, Opts.defaultOpts⟩
      String [] [] [] (fun s => s) "executable").2.1 (by simp)
  · exact (c4_required_field_validation ⟨"executable", stringTy, Opts.defaultOpts⟩
      String [] [] [(AssignForm.required "executable", some "find")]
      (fun s => s) "executable").2.2 (by decide)

/-- Claim C5: a Sequence-shaped field with an accumulator name `m` gets
exactly the accumulator method named `m` over the element type; each
accumulator call appends to the current accumulated sequence (an empty one
when unset) and never overwrites it wholesale; from a fresh builder, calls
with `e1, ..., eN` (N ≥ 1) leave `Some [e1, ..., eN]` stored, and the
`finish`-body assignment then puts exactly that sequence — order preserved,
nothing deduplicated — into the finished record. -/
theorem c5_accumulator_order (f : Fd) (α : Type u) :
    (∀ t m, classify f.ty = .ok (.sequence, t) → f.opts.each = some m →
      gen_method f = .ok (.accumulator m t)) ∧
    (∀ (stored : Option (List α)) (v : α),
      run_each stored v = some (stored.getD [] ++ [v])) ∧
    (∀ es : List α, es ≠ [] → List.foldl run_each none es = some es) ∧
    (∀ t, classify f.ty = .ok (.sequence, t) →
      ∀ (evalD : String → List α) (es : List α),
        ∃ fm, gen_assign f = .ok fm ∧
          run_assign fm evalD (some es) = .ok (.val es)) := by
  refine ⟨?_, fun stored v => rfl, ?_, ?_⟩
  · intro t m hc heach
    obtain ⟨hopt, hvec⟩ := classify_sequence hc
    simp [gen_method, hopt, hvec, heach]
  · intro es hne
    cases es with
    | nil => exact absurd rfl hne
    | cons e rest =>
      rw [List.foldl_cons]
      have h1 : run_each none e = some [e] := rfl
      rw [h1, foldl_run_each_some]
      simp
  · intro t hc evalD es
    obtain ⟨hopt, -⟩ := classify_sequence hc
    cases hd : f.opts.defaultExpr with
    | some d => exact ⟨.withDefault d, by simp [gen_assign, hopt, hd], rfl⟩
    | none => exact ⟨.required f.name, by simp [gen_assign, hopt, hd], rfl⟩

/-- The `args: Vec<String>` field with its directive from the example. -/
def argsField : Fd := ⟨"args", vecOf stringTy, ⟨some "arg", some "Default::default()"⟩⟩

/-- Witness for C5: scenario B of the specification — `args` with
accumulator `arg`; two calls `arg("-c")`, `arg("-vv")` accumulate to
`["-c", "-vv"]` and `finish` puts exactly that list in the record. -/
theorem c5_witness :
    gen_method argsField = .ok (.accumulator "arg" stringTy) ∧
    List.foldl run_each none ["-c", "-vv"] = some ["-c", "-vv"] ∧
    run_each (some ["-c"]) "-vv" = some ["-c", "-vv"] ∧
    (∃ fm, gen_assign argsField = .ok fm ∧
      run_assign fm (fun _ => []) (some ["-c", "-vv"]) =
        .ok (.val ["-c", "-vv"])) := by
  refine ⟨?_, ?_, ?_, ?_⟩
  · exact (c5_accumulator_order argsField String).1 stringTy "arg" rfl rfl
  · exact (c5_accumulator_order argsField String).2.2.1 ["-c", "-vv"] (by simp)
  · exact (c5_accumulator_order argsField String).2.1 (some ["-c"]) "-vv"
  · exact (c5_accumulator_order argsField String).2.2.2 stringTy rfl
      (fun _ => []) ["-c", "-vv"]

/-- Claim C6: a non-Optional field with a configured default expression gets
the `withDefault` assignment; when never set, the finished field equals the
evaluation of the default expression; when set, the finished field equals
the stored value for *every* evaluator of the default (the default is never
evaluated or used). -/
theorem c6_default_expr (f : Fd) (α : Type u) (d : String) :
    (∀ s t, classify f.ty = .ok (s, t) → s ≠ Shape.optionalShape →
      f.opts.defaultExpr = some d → gen_assign f = .ok (.withDefault d)) ∧
    (∀ evalD : String → α,
      run_assign (.withDefault d) evalD none = .ok (.val (evalD d))) ∧
    (∀ (v : α) (evalD evalD₂ : String → α),
      run_assign (.withDefault d) evalD (some v) =
        run_assign (.withDefault d) evalD₂ (some v) ∧
      run_assign (.withDefault d) evalD (some v) = .ok (.val v)) := by
  refine ⟨?_, fun evalD => rfl, fun v evalD evalD₂ => ⟨rfl, rfl⟩⟩
  intro s t hc hs hd
  cases s with
  | optionalShape => exact absurd rfl hs
  | plain =>
    obtain ⟨hopt, -, -⟩ := classify_plain hc
    simp [gen_assign, hopt, hd]
  | sequence =>
    obtain ⟨hopt, -⟩ := classify_sequence hc
    simp [gen_assign, hopt, hd]

/-- The `env: Vec<String>` field with its directive from the example. -/
def envField : Fd :=
  ⟨"env", vecOf stringTy, ⟨some "env", some "vec![\"RUST_LOG=info\".into()]"⟩⟩

/-- Witness for C6: scenario C of the specification — `env` with a default;
unset yields the evaluated default, set with `["X=1"]` yields `["X=1"]`
under two different evaluators. -/
theorem c6_witness :
    gen_assign envField = .ok (.withDefault "vec![\"RUST_LOG=info\".into()]") ∧
    run_assign (.withDefault "vec![\"RUST_LOG=info\".into()]")
        (fun _ => ["RUST_LOG=info"]) (none : Option (List String)) =
      .ok (.val ["RUST_LOG=info"]) ∧
    run_assign (.withDefault "vec![\"RUST_LOG=info\".into()]")
        (fun _ => ["RUST_LOG=info"]) (some ["X=1"]) = .ok (.val ["X=1"]) := by
  refine ⟨?_, ?_, ?_⟩
  · exact (c6_default_expr envField (List String)
      "vec![\"RUST_LOG=info\".into()]").1 Shape.sequence stringTy rfl
      (by decide) rfl
  · exact (c6_default_expr envField (List String)
      "vec![\"RUST_LOG=info\".into()]").2.1 (fun _ => ["RUST_LOG=info"])
  · exact ((c6_default_expr envField (List String)
      "vec![\"RUST_LOG=info\".into()]").2.2 ["X=1"]
      (fun _ => ["RUST_LOG=info"]) (fun _ => [])).2

/-- Claim C7: an Optional-shaped field always gets the as-is assignment
(even when a default is configured — the Optional rule has priority), so
`finish` never fails on it; its setter takes the inner type; and the
round-trip holds: setting `x` then finishing yields `Some x`, never setting
yields none. -/
theorem c7_optional_field (f : Fd) (α : Type u) :
    ∀ t, classify f.ty = .ok (.optionalShape, t) →
      gen_assign f = .ok .asIs ∧
      gen_method f = .ok (.setter f.name t) ∧
      (∀ (evalD : String → α) (stored : Option α),
        run_assign .asIs evalD stored = .ok (.opt stored)) ∧
      (∀ (evalD : String → α) (stored : Option α) (x : α),
        run_assign .asIs evalD (run_setter stored x) = .ok (.opt (some x))) ∧
      (∀ evalD : String → α, run_assign .asIs evalD none = .ok (.opt none)) := by
  intro t hc
  have hopt := classify_optional hc
  have hvec := option_true_not_vec hopt
  refine ⟨by simp [gen_assign, hopt], by simp [gen_method, hopt, hvec],
    fun evalD stored => rfl, fun evalD stored x => rfl, fun evalD => rfl⟩

/-- An `Option<String>` field carrying a `default` directive, to exercise
the priority of the Optional rule over the default rule. -/
def optWithDefaultField : Fd :=
  ⟨"current_dir", optionOf stringTy, ⟨none, some "String::new()"⟩⟩

/-- Witness for C7: `current_dir: Option<String>` — even with a configured
default the assignment is as-is; set("/user/davirain") then finish yields
`Some "/user/davirain"`, never-set yields none. -/
theorem c7_witness :
    gen_assign optWithDefaultField = .ok .asIs ∧
    gen_method optWithDefaultField = .ok (.setter "current_dir" stringTy) ∧
    run_assign .asIs (fun s => s) (run_setter none "/user/davirain") =
      .ok (.opt (some "/user/davirain")) ∧
    run_assign .asIs (fun s => s) (none : Option String) = .ok (.opt none) := by
  refine ⟨?_, ?_, ?_, ?_⟩
  · exact (c7_optional_field optWithDefaultField String stringTy rfl).1
  · exact (c7_optional_field optWithDefaultField String stringTy rfl).2.1
  · exact (c7_optional_field optWithDefaultField String stringTy rfl).2.2.2.1
      (fun s => s) none "/user/davirain"
  · exact (c7_optional_field optWithDefaultField String stringTy rfl).2.2.2.2
      (fun s => s)

/-- Claim C8 counterexample: a directive containing the recognized key
`each` alongside an unknown key `wat` does NOT keep the recognized key's
value — the darling parse of the whole directive fails and
`unwrap_or_default()` replaces everything with the all-default options, so
`each` resolves to `none`, not `some "arg"`. -/
theorem c8_counterexample :
    resolve_opts (some [("each", "arg"), ("wat", "1")]) = Opts.defaultOpts ∧
    (resolve_opts (some [("each", "arg"), ("wat", "1")])).each ≠ some "arg" := by
  exact ⟨rfl, by decide⟩

/-- Claim C8 (amended): a field with no directive resolves to the
all-default options (`eachName = none`, `defaultExpr = none`); a directive
whose keys are all recognized resolves to those keys' values; but a
directive containing any unknown key fails to parse as a whole and — the
failure being swallowed by `unwrap_or_default()` — resolves to the
all-default options, dropping recognized keys appearing alongside. -/
theorem c8_directive_resolution (kvs : List (String × String)) (rf : RawField) :
    resolve_opts none = Opts.defaultOpts ∧
    (rf.attrs = none → (mk_fd rf).opts = Opts.defaultOpts) ∧
    (kvs.all (fun kv => kv.1 = "each" || kv.1 = "default") = true →
      resolve_opts (some kvs) = ⟨lookupKey "each" kvs, lookupKey "default" kvs⟩) ∧
    (kvs.all (fun kv => kv.1 = "each" || kv.1 = "default") = false →
      resolve_opts (some kvs) = Opts.defaultOpts) := by
  refine ⟨rfl, ?_, ?_, ?_⟩
  · intro h
    simp [mk_fd, resolve_opts, opts_from_field, h]
  · intro h
    simp [resolve_opts, opts_from_field, h]
  · intro h
    simp [resolve_opts, opts_from_field, h]

/-- Witness for C8 (amended): the example's `args` directive (all keys
recognized) resolves to its values; a directive with only an unknown key
resolves to the defaults; no directive resolves to the defaults. -/
theorem c8_witness :
    resolve_opts (some [("each", "arg"), ("default", "Default::default()")]) =
      ⟨some "arg", some "Default::default()"⟩ ∧
    resolve_opts (some [("wat", "1")]) = Opts.defaultOpts ∧
    (mk_fd ⟨"executable", stringTy, none⟩).opts = Opts.defaultOpts := by
  refine ⟨?_, ?_, ?_⟩
  · exact (c8_directive_resolution
      [("each", "arg"), ("default", "Default::default()")]
      ⟨"executable", stringTy, none⟩).2.2.1 (by decide)
  · exact (c8_directive_resolution [("wat", "1")]
      ⟨"executable", stringTy, none⟩).2.2.2 (by decide)
  · exact (c8_directive_resolution [] ⟨"executable", stringTy, none⟩).2.1 rfl

/-- Claim C9: generation is deterministic — equal inputs produce equal
generated output, and the generated finishing operation produces equal
results on equal builder states (the embedding is a pure function: the
source performs no I/O and consults no mutable or random state). -/
theorem c9_deterministic (ctx₁ ctx₂ : BuilderContext) (α : Type u)
    (fs₁ fs₂ : List (AssignForm × Option α)) (ev₁ ev₂ : String → α) :
    (ctx₁ = ctx₂ → generate ctx₁ = generate ctx₂) ∧
    (fs₁ = fs₂ → ev₁ = ev₂ → run_finish fs₁ ev₁ = run_finish fs₂ ev₂) := by
  constructor
  · intro h
    rw [h]
  · intro h h₂
    rw [h, h₂]

/-- Witness for C9: re-invoking `generate` on the example's `Command`
context, and the finishing operation on a concrete builder state, give
identical results. -/
theorem c9_witness :
    generate commandCtx = generate commandCtx ∧
    run_finish [(AssignForm.required "executable", (some "find" : Option String))]
        (fun s => s) =
      run_finish [(AssignForm.required "executable", some "find")] (fun s => s) :=
  ⟨(c9_deterministic commandCtx commandCtx String [] [] id id).1 rfl,
   (c9_deterministic commandCtx commandCtx String
      [(AssignForm.required "executable", some "find")]
      [(AssignForm.required "executable", some "find")]
      (fun s => s) (fun s => s)).2 rfl rfl⟩

end Builder
